import Mathlib

set_option maxRecDepth 100000

/-!
# Verification of the dynamic flag engine

A shallow embedding of `backend/app/core/crypto.py` (`CryptoService`) and
`backend/app/services/flag_engine.py` (`FlagEngine`) from the forensic CTF
platform, together with proofs of the spec's testable properties.

Modelling conventions:
* Python `str` values are `List Char` (sequences of code points).
* Python `bytes` values are `List Nat` with every element `< 256`.
* Python `int` is `Int`; `time.time()` is passed in explicitly as a
  parameter `now : Int` (seconds since the epoch), so the ambient clock
  becomes an argument.
* `hashlib.sha256`, `hmac.new(..., hashlib.sha256)` and
  `base64.urlsafe_b64encode` are implemented concretely below, so that
  flags can be computed inside the logic.
* `hmac.compare_digest(a, b)` is, extensionally, byte-string equality;
  its constant-time execution is a timing property with no counterpart in
  a functional embedding.
* Database effects are explicit state passing: the submission table is a
  `List Submission`, and `secrets.token_hex(32)` results are supplied as
  explicit `fresh` arguments.
-/

/-! ## 32-bit words as naturals -/

/-- Reduce modulo `2^32`: the implicit word width of SHA-256 arithmetic. -/
def w32 (x : Nat) : Nat := x % 4294967296

/-- Right rotation of a 32-bit word. -/
def rotr32 (n x : Nat) : Nat := w32 ((x >>> n) ||| (x <<< (32 - n)))

/-- SHA-256 big sigma 0. -/
def bsig0 (x : Nat) : Nat := rotr32 2 x ^^^ rotr32 13 x ^^^ rotr32 22 x

/-- SHA-256 big sigma 1. -/
def bsig1 (x : Nat) : Nat := rotr32 6 x ^^^ rotr32 11 x ^^^ rotr32 25 x

/-- SHA-256 small sigma 0. -/
def ssig0 (x : Nat) : Nat := rotr32 7 x ^^^ rotr32 18 x ^^^ (x >>> 3)

/-- SHA-256 small sigma 1. -/
def ssig1 (x : Nat) : Nat := rotr32 17 x ^^^ rotr32 19 x ^^^ (x >>> 10)

/-- SHA-256 choice function. -/
def chF (e f g : Nat) : Nat := (e &&& f) ^^^ ((e ^^^ 4294967295) &&& g)

/-- SHA-256 majority function. -/
def majF (a b c : Nat) : Nat := (a &&& b) ^^^ (a &&& c) ^^^ (b &&& c)

/-! ## SHA-256 -/

/-- The eight 32-bit words of a SHA-256 chaining state. -/
structure Hash8 where
  a : Nat
  b : Nat
  c : Nat
  d : Nat
  e : Nat
  f : Nat
  g : Nat
  h : Nat

/-- SHA-256 initial hash value. -/
def initH : Hash8 :=
  ⟨1779033703, 3144134277, 1013904242, 2773480762,
   1359893119, 2600822924, 528734635, 1541459225⟩

/-- The 64 SHA-256 round constants. -/
def K64 : List Nat :=
  [1116352408, 1899447441, 3049323471, 3921009573,
   961987163, 1508970993, 2453635748, 2870763221,
   3624381080, 310598401, 607225278, 1426881987,
   1925078388, 2162078206, 2614888103, 3248222580,
   3835390401, 4022224774, 264347078, 604807628,
   770255983, 1249150122, 1555081692, 1996064986,
   2554220882, 2821834349, 2952996808, 3210313671,
   3336571891, 3584528711, 113926993, 338241895,
   666307205, 773529912, 1294757372, 1396182291,
   1695183700, 1986661051, 2177026350, 2456956037,
   2730485921, 2820302411, 3259730800, 3345764771,
   3516065817, 3600352804, 4094571909, 275423344,
   430227734, 506948616, 659060556, 883997877,
   958139571, 1322822218, 1537002063, 1747873779,
   1955562222, 2024104815, 2227730452, 2361852424,
   2428436474, 2756734187, 3204031479, 3329325298]

/-- Pack big-endian bytes into 32-bit words, four at a time. -/
def bytesToWords : List Nat → List Nat
  | a :: b :: c :: d :: rest => (((a * 256 + b) * 256 + c) * 256 + d) :: bytesToWords rest
  | _ => []

/-- Message-schedule extension: from a sliding window of the last sixteen
words, emit the next `fuel` words of the schedule. -/
def schedExt : Nat → List Nat → List Nat
  | 0, _ => []
  | fuel + 1,
    w0 :: w1 :: w2 :: w3 :: w4 :: w5 :: w6 :: w7 ::
    w8 :: w9 :: w10 :: w11 :: w12 :: w13 :: w14 :: w15 :: _ =>
      let nw := w32 (ssig1 w14 + w9 + ssig0 w1 + w0)
      nw :: schedExt fuel
        [w1, w2, w3, w4, w5, w6, w7, w8, w9, w10, w11, w12, w13, w14, w15, nw]
  | _ + 1, _ => []

/-- One SHA-256 round on the working variables. -/
def roundF (s : Hash8) (k w : Nat) : Hash8 :=
  let t1 := w32 (s.h + bsig1 s.e + chF s.e s.f s.g + k + w)
  let t2 := w32 (bsig0 s.a + majF s.a s.b s.c)
  ⟨w32 (t1 + t2), s.a, s.b, s.c, w32 (s.d + t1), s.e, s.f, s.g⟩

/-- Run the 64 rounds over paired round constants and schedule words. -/
def compressWords : Hash8 → List Nat → List Nat → Hash8
  | s, k :: ks, w :: ws => compressWords (roundF s k w) ks ws
  | s, _, _ => s

/-- Word-wise modular addition of two chaining states. -/
def addH (x y : Hash8) : Hash8 :=
  ⟨w32 (x.a + y.a), w32 (x.b + y.b), w32 (x.c + y.c), w32 (x.d + y.d),
   w32 (x.e + y.e), w32 (x.f + y.f), w32 (x.g + y.g), w32 (x.h + y.h)⟩

/-- Compress a single 64-byte block into the chaining state. -/
def processBlock (s : Hash8) (block : List Nat) : Hash8 :=
  let w16 := bytesToWords block
  addH s (compressWords s K64 (w16 ++ schedExt 48 w16))

/-- Fold the compression function over consecutive 64-byte blocks; the
fuel argument (any bound on the byte count) makes the recursion structural. -/
def processBlocks : Nat → Hash8 → List Nat → Hash8
  | 0, s, _ => s
  | _ + 1, s, [] => s
  | fuel + 1, s, l => processBlocks fuel (processBlock s (l.take 64)) (l.drop 64)

/-- The message length in bits as eight big-endian bytes. -/
def lenBytes (n : Nat) : List Nat :=
  [(n >>> 56) % 256, (n >>> 48) % 256, (n >>> 40) % 256, (n >>> 32) % 256,
   (n >>> 24) % 256, (n >>> 16) % 256, (n >>> 8) % 256, n % 256]

/-- SHA-256 padding: `128`, zeros to 56 mod 64, then the 64-bit bit length. -/
def padMessage (msg : List Nat) : List Nat :=
  msg ++ 128 :: List.replicate ((119 - msg.length % 64) % 64) 0 ++ lenBytes (8 * msg.length)

/-- A 32-bit word as four big-endian bytes. -/
def wordBytes (w : Nat) : List Nat :=
  [(w >>> 24) % 256, (w >>> 16) % 256, (w >>> 8) % 256, w % 256]

/-- SHA-256 of a byte string, as its 32 digest bytes.
Models Python `hashlib.sha256(msg).digest()`. -/
def sha256 (msg : List Nat) : List Nat :=
  let padded := padMessage msg
  let s := processBlocks padded.length initH padded
  wordBytes s.a ++ wordBytes s.b ++ wordBytes s.c ++ wordBytes s.d ++
  wordBytes s.e ++ wordBytes s.f ++ wordBytes s.g ++ wordBytes s.h

/-! ## Encodings -/

/-- UTF-8 encoding of a single code point. -/
def utf8Char (c : Char) : List Nat :=
  let n := c.toNat
  if n < 128 then [n]
  else if n < 2048 then [192 + n / 64, 128 + n % 64]
  else if n < 65536 then [224 + n / 4096, 128 + (n / 64) % 64, 128 + n % 64]
  else [240 + n / 262144, 128 + (n / 4096) % 64, 128 + (n / 64) % 64, 128 + n % 64]

/-- UTF-8 encoding of a string; models Python `str.encode("utf-8")`. -/
def utf8Encode : List Char → List Nat
  | [] => []
  | c :: cs => utf8Char c ++ utf8Encode cs

/-- The lowercase hex digits. -/
def hexAlphabet : List Char := "0123456789abcdef".data

/-- A nibble as a hex digit. -/
def hexChar (n : Nat) : Char := hexAlphabet.getD n '0'

/-- Bytes as a lowercase hex string; models Python `.hexdigest()`. -/
def bytesToHex : List Nat → List Char
  | [] => []
  | b :: bs => hexChar (b / 16) :: hexChar (b % 16) :: bytesToHex bs

/-- The URL-safe base64 alphabet (RFC 4648 `base64url`). -/
def b64Alphabet : List Char :=
  "ABCDEFGHIJKLMNOPQRSTUVWXYZabcdefghijklmnopqrstuvwxyz0123456789-_".data

/-- A sextet as a base64url character. -/
def b64Char (n : Nat) : Char := b64Alphabet.getD n 'A'

/-- URL-safe base64 with `=` padding; models Python
`base64.urlsafe_b64encode` (as a character string). -/
def base64Encode : List Nat → List Char
  | b1 :: b2 :: b3 :: rest =>
      let n := (b1 * 256 + b2) * 256 + b3
      b64Char (n >>> 18) :: b64Char ((n >>> 12) % 64) ::
      b64Char ((n >>> 6) % 64) :: b64Char (n % 64) :: base64Encode rest
  | [b1, b2] =>
      let n := b1 * 256 + b2
      [b64Char (n >>> 10), b64Char ((n >>> 4) % 64), b64Char ((n <<< 2) % 64), '=']
  | [b1] => [b64Char (b1 >>> 2), b64Char ((b1 <<< 4) % 64), '=', '=']
  | [] => []

/-- HMAC-SHA256 (RFC 2104) with a 64-byte block; models Python
`hmac.new(key, msg, hashlib.sha256).digest()`. -/
def hmacSha256 (key msg : List Nat) : List Nat :=
  let k0 := if 64 < key.length then sha256 key else key
  let kp := k0 ++ List.replicate (64 - k0.length) 0
  sha256 ((kp.map fun b => b ^^^ 92) ++ sha256 ((kp.map fun b => b ^^^ 54) ++ msg))

/-- The decimal digits. -/
def decAlphabet : List Char := "0123456789".data

/-- A decimal digit character. -/
def digitChar (n : Nat) : Char := decAlphabet.getD n '0'

/-- Fueled most-significant-first decimal digit accumulator. -/
def natDigitsAux : Nat → Nat → List Char → List Char
  | 0, _, acc => acc
  | fuel + 1, n, acc =>
      if n < 10 then digitChar n :: acc
      else natDigitsAux fuel (n / 10) (digitChar (n % 10) :: acc)

/-- Decimal representation of a natural number. -/
def natRepr (n : Nat) : List Char := natDigitsAux (n + 1) n []

/-- Decimal representation of an integer; models Python `str(int)`
inside an f-string. -/
def intRepr (i : Int) : List Char :=
  if i < 0 then '-' :: natRepr i.natAbs else natRepr i.natAbs

/-! ## Python string primitives -/

/-- Code points treated as whitespace by Python `str.strip()`
(the Unicode whitespace set CPython uses). -/
def isPySpace (c : Char) : Bool :=
  ([9, 10, 11, 12, 13, 28, 29, 30, 31, 32, 133, 160, 5760,
    8192, 8193, 8194, 8195, 8196, 8197, 8198, 8199, 8200, 8201, 8202,
    8232, 8233, 8239, 8287, 12288] : List Nat).contains c.toNat

/-- Python `str.strip()`: drop leading and trailing whitespace. -/
def pyStrip (s : List Char) : List Char :=
  ((s.dropWhile isPySpace).reverse.dropWhile isPySpace).reverse

/-- ASCII case folding of one character. Models Python `str.lower()`
restricted to the ASCII letters (the platform's answers and digests are
ASCII; Python additionally folds non-ASCII letters). -/
def lowerChar (c : Char) : Char :=
  if h : 65 ≤ c.toNat ∧ c.toNat ≤ 90 then
    ⟨⟨⟨c.toNat + 32, by omega⟩⟩, Or.inl (show c.toNat + 32 < 55296 by omega)⟩
  else c

/-- Python `str.lower()` over a whole string. -/
def pyLower (s : List Char) : List Char := s.map lowerChar

/-! ## CryptoService (`backend/app/core/crypto.py`) -/

/-- `hmac.compare_digest` on byte strings: extensionally, equality.
(Its constant-time execution is a timing property outside the model.) -/
def compare_digest (a b : List Nat) : Bool := a == b

/-- The flag envelope opening, `FLAG_PREFIX = "FORENSIC{"`. -/
def flagPre : List Char := "FORENSIC\x7b".data

/-- The flag envelope closing, `FLAG_SUFFIX = "}"`. -/
def flagSuf : List Char := "\x7d".data

/-- `CryptoService.hash_semantic_truth`: SHA-256 hex digest of the
normalized (stripped, lowercased) answer. An instance method in the
source, but independent of the instance. -/
def hash_semantic_truth (semantic_truth : List Char) : List Char :=
  bytesToHex (sha256 (utf8Encode (pyLower (pyStrip semantic_truth))))

/-- The crypto service: the HMAC secret (`settings.FLAG_SECRET_KEY`) and
the flag window width in minutes (`settings.FLAG_EXPIRY_MINUTES`,
default 60). -/
structure CryptoService where
  secretKey : List Char
  flagExpiryMinutes : Nat := 60

namespace CryptoService

/-- `self._secret_key`: the secret, UTF-8 encoded at construction. -/
def secretKeyBytes (c : CryptoService) : List Nat := utf8Encode c.secretKey

/-- `CryptoService._get_time_window`: `int(time.time() // (minutes * 60))`,
with the clock passed explicitly. Python `//` is floor division. -/
def get_time_window (c : CryptoService) (now : Int) : Int :=
  Int.fdiv now (c.flagExpiryMinutes * 60)

/-- `CryptoService._get_adjacent_time_windows`:
`(current - 1, current, current + 1)`. -/
def get_adjacent_time_windows (c : CryptoService) (now : Int) : Int × Int × Int :=
  let current := c.get_time_window now
  (current - 1, current, current + 1)

/-- The HMAC message
`f"{user_id}:{case_id}:{semantic_truth_hash}:{user_flag_salt}:{time_window}"`
built inside `generate_flag`. -/
def flag_message
    (user_id case_id semantic_truth_hash user_flag_salt : List Char)
    (tw : Int) : List Char :=
  user_id ++ ':' :: case_id ++ ':' :: semantic_truth_hash ++
  ':' :: user_flag_salt ++ ':' :: intRepr tw

/-- The raw 32-byte HMAC-SHA256 digest `generate_flag` computes. -/
def flag_digest (c : CryptoService)
    (user_id case_id semantic_truth_hash user_flag_salt : List Char)
    (tw : Int) : List Nat :=
  hmacSha256 c.secretKeyBytes
    (utf8Encode (flag_message user_id case_id semantic_truth_hash user_flag_salt tw))

/-- The flag body: URL-safe base64 of the digest, truncated to 32
characters. -/
def flag_value (c : CryptoService)
    (user_id case_id semantic_truth_hash user_flag_salt : List Char)
    (tw : Int) : List Char :=
  (base64Encode (c.flag_digest user_id case_id semantic_truth_hash user_flag_salt tw)).take 32

/-- `CryptoService.generate_flag`: HMAC-SHA256 over
`user_id:case_id:semantic_truth_hash:user_flag_salt:time_window`,
URL-safe base64, truncated to 32 characters, in the flag envelope.
`time_window = none` means "use the current window of `now`". -/
def generate_flag (c : CryptoService)
    (user_id case_id semantic_truth_hash user_flag_salt : List Char)
    (now : Int) (time_window : Option Int) : List Char :=
  let tw := time_window.getD (c.get_time_window now)
  flagPre ++ c.flag_value user_id case_id semantic_truth_hash user_flag_salt tw ++ flagSuf

/-- `CryptoService.verify_flag`: recompute the expected flag for the
current window, then for the previous window, comparing each against the
submission with `compare_digest` over the UTF-8 encodings. -/
def verify_flag (c : CryptoService)
    (submitted_flag user_id case_id semantic_truth_hash user_flag_salt : List Char)
    (now : Int) : Bool × List Char :=
  let prev_window := (c.get_adjacent_time_windows now).1
  let curr_window := (c.get_adjacent_time_windows now).2.1
  let expected_current :=
    c.generate_flag user_id case_id semantic_truth_hash user_flag_salt now (some curr_window)
  if compare_digest (utf8Encode submitted_flag) (utf8Encode expected_current) then
    (true, "valid".data)
  else
    let expected_previous :=
      c.generate_flag user_id case_id semantic_truth_hash user_flag_salt now (some prev_window)
    if compare_digest (utf8Encode submitted_flag) (utf8Encode expected_previous) then
      (true, "valid".data)
    else
      (false, "invalid_or_expired".data)

/-- `CryptoService.verify_answer`: hash the submission and compare with
the stored digest via `compare_digest` over the UTF-8 encodings. -/
def verify_answer (submitted_answer stored_semantic_truth_hash : List Char) : Bool :=
  compare_digest
    (utf8Encode (hash_semantic_truth submitted_answer))
    (utf8Encode stored_semantic_truth_hash)

end CryptoService

/-! ## Data model (`backend/app/db/models.py`), engine-relevant fields -/

/-- A platform user: identity (`str(user.id)`), flag salt, and the salt's
last rotation instant (seconds since the epoch, modelling the stored
`datetime`). -/
structure User where
  id : List Char
  flag_salt : List Char
  flag_salt_rotated_at : Int
deriving DecidableEq

/-- A case: identity, stored answer digest, per-case salt, and points. -/
structure Case where
  id : List Char
  semantic_truth_hash : List Char
  case_salt : List Char
  points : Int
deriving DecidableEq

/-- A persisted submission record. `submitted_answer_hash` is the only
answer-derived field — the model has no field for the plaintext answer,
matching the schema. -/
structure Submission where
  user_id : List Char
  case_id : List Char
  submitted_answer_hash : List Char
  is_correct : Bool
  ip_address : Option (List Char)
  user_agent : Option (List Char)
  time_spent_seconds : Option Int
deriving DecidableEq

/-- The quadruple `process_submission` returns. -/
structure SubmissionResult where
  is_correct : Bool
  message : List Char
  flag : Option (List Char)
  points : Option Int
deriving DecidableEq

/-! ## FlagEngine (`backend/app/services/flag_engine.py`) -/

/-- The generic failure message (no hints on incorrect submissions). -/
def incorrect_message : List Char :=
  "Incorrect. Continue your investigation.".data

/-- Success message for a first solve. -/
def correct_message (expiry_minutes : Nat) : List Char :=
  "Correct! Here is your unique flag. It expires in ".data ++
  natRepr expiry_minutes ++ " minutes.".data

/-- Success message for a repeat solve. -/
def already_solved_message (expiry_minutes : Nat) : List Char :=
  "Correct! You\x27ve already solved this case. Flag expires in ".data ++
  natRepr expiry_minutes ++ " minutes.".data

/-- The flag engine: its crypto service plus the salt-rotation interval
(`settings.FLAG_SALT_ROTATION_HOURS`, default 24). -/
structure FlagEngine where
  crypto : CryptoService
  flagSaltRotationHours : Nat := 24

namespace FlagEngine

/-- `FlagEngine.maybe_rotate_user_salt`: rotate when
`flag_salt_rotated_at < now - timedelta(hours=rotation_hours)`.
The `secrets.token_hex(32)` result is the explicit `fresh` argument;
the persistence flush is the returned record. -/
def maybe_rotate_user_salt (e : FlagEngine) (now : Int) (fresh : List Char)
    (user : User) : User :=
  let rotation_threshold := now - e.flagSaltRotationHours * 3600
  if user.flag_salt_rotated_at < rotation_threshold then
    { user with flag_salt := fresh, flag_salt_rotated_at := now }
  else
    user

/-- `FlagEngine.generate_flag_for_user`: delegate to the crypto service
with `combined_case_id = f"{case_id}:{case_salt}"` and the current
window. -/
def generate_flag_for_user (e : FlagEngine)
    (user_id case_id semantic_truth_hash case_salt user_flag_salt : List Char)
    (now : Int) : List Char :=
  let combined_case_id := case_id ++ ':' :: case_salt
  e.crypto.generate_flag user_id combined_case_id semantic_truth_hash
    user_flag_salt now none

/-- `FlagEngine.verify_answer`: delegate to the crypto service. -/
def verify_answer (_e : FlagEngine)
    (submitted_answer stored_semantic_truth_hash : List Char) : Bool :=
  CryptoService.verify_answer submitted_answer stored_semantic_truth_hash

/-- `FlagEngine.verify_flag`: delegate with the combined case id. -/
def verify_flag (e : FlagEngine)
    (submitted_flag user_id case_id semantic_truth_hash case_salt user_flag_salt : List Char)
    (now : Int) : Bool × List Char :=
  let combined_case_id := case_id ++ ':' :: case_salt
  e.crypto.verify_flag submitted_flag user_id combined_case_id
    semantic_truth_hash user_flag_salt now

/-- `FlagEngine._check_already_solved`: is there a prior correct
submission by this user for this case? -/
def check_already_solved (db : List Submission)
    (user_id case_id : List Char) : Bool :=
  db.any fun s => s.user_id == user_id && s.case_id == case_id && s.is_correct

/-- `FlagEngine.process_submission`: rotate the salt if due, look up
prior solves, verify the answer, always append one submission record
holding the answer's digest, and mint a flag only when correct.
Returns the updated submission table, the (possibly rotated) user, and
the response quadruple. -/
def process_submission (e : FlagEngine) (db : List Submission)
    (user : User) (cs : Case) (submitted_answer : List Char)
    (ip_address user_agent : Option (List Char))
    (time_spent_seconds : Option Int)
    (now : Int) (fresh : List Char) :
    List Submission × User × SubmissionResult :=
  let user := e.maybe_rotate_user_salt now fresh user
  let already_solved := check_already_solved db user.id cs.id
  let is_correct := e.verify_answer submitted_answer cs.semantic_truth_hash
  let submitted_answer_hash := hash_semantic_truth submitted_answer
  let submission : Submission :=
    ⟨user.id, cs.id, submitted_answer_hash, is_correct,
     ip_address, user_agent, time_spent_seconds⟩
  let db := db ++ [submission]
  if is_correct then
    let flag := e.generate_flag_for_user user.id cs.id cs.semantic_truth_hash
      cs.case_salt user.flag_salt now
    if already_solved then
      (db, user, ⟨true, already_solved_message e.crypto.flagExpiryMinutes, some flag, some 0⟩)
    else
      (db, user, ⟨true, correct_message e.crypto.flagExpiryMinutes, some flag, some cs.points⟩)
  else
    (db, user, ⟨false, incorrect_message, none, none⟩)

end FlagEngine

/-! ## Proof infrastructure -/

/-- Little-endian base-256 value of a byte string; the injection used to
pigeonhole 32-byte digests into a finite set. -/
def valLE : List Nat → Nat
  | [] => 0
  | b :: bs => b + 256 * valLE bs

/-- A concrete crypto service with the configuration defaults, used for
concrete evaluations. -/
def cTest : CryptoService := { secretKey := "test-secret-key".data }

/-- A concrete flag engine over `cTest` with the default 24-hour
rotation interval. -/
def eTest : FlagEngine := { crypto := cTest }

example : sha256 [] =
    [227, 176, 196, 66, 152, 252, 28, 20,
     154, 251, 244, 200, 153, 111, 185, 36,
     39, 174, 65, 228, 100, 155, 147, 76,
     164, 149, 153, 27, 120, 82, 184, 85] := by decide

example : sha256 [97, 98, 99] =
    [186, 120, 22, 191, 143, 1, 207, 234,
     65, 65, 64, 222, 93, 174, 34, 35,
     176, 3, 97, 163, 150, 23, 122, 156,
     180, 16, 255, 97, 242, 0, 21, 173] := by decide

example : hmacSha256 (utf8Encode "Jefe".data)
      (utf8Encode "what do ya want for nothing?".data) =
    [91, 220, 193, 70, 191, 96, 117, 78,
     106, 4, 36, 38, 8, 149, 117, 199,
     90, 0, 63, 8, 157, 39, 57, 131,
     157, 236, 88, 185, 100, 236, 56, 67] := by decide

example : bytesToHex (sha256 []) =
    "e3b0c44298fc1c149afbf4c8996fb92427ae41e4649b934ca495991b7852b855".data := by decide

example : base64Encode [20, 251, 156, 3, 217, 126] = "FPucA9l-".data := by decide
example : base64Encode [20, 251, 156, 3, 217] = "FPucA9k=".data := by decide
example : base64Encode [20, 251, 156, 3] = "FPucAw==".data := by decide
example : intRepr (-17) = "-17".data := by decide
example : intRepr 105 = "105".data := by decide
example : pyStrip "  Foo ".data = "Foo".data := by decide
example : pyLower "Foo".data = "foo".data := by decide

/-! ## General lemmas: digest shape and the pigeonhole bound -/

theorem wordBytes_lt (w : Nat) : ∀ b ∈ wordBytes w, b < 256 := by
  intro b hb
  simp only [wordBytes, List.mem_cons, List.not_mem_nil, or_false] at hb
  rcases hb with rfl | rfl | rfl | rfl <;> exact Nat.mod_lt _ (by norm_num)

theorem sha256_length (msg : List Nat) : (sha256 msg).length = 32 := by
  simp [sha256, wordBytes]

theorem sha256_lt (msg : List Nat) : ∀ b ∈ sha256 msg, b < 256 := by
  intro b hb
  simp only [sha256, List.mem_append] at hb
  rcases hb with ((((((h | h) | h) | h) | h) | h) | h) | h <;> exact wordBytes_lt _ _ h

theorem hmacSha256_length (key msg : List Nat) : (hmacSha256 key msg).length = 32 := by
  simp only [hmacSha256]
  exact sha256_length _

theorem hmacSha256_lt (key msg : List Nat) : ∀ b ∈ hmacSha256 key msg, b < 256 := by
  simp only [hmacSha256]
  exact sha256_lt _

theorem valLE_lt : ∀ l : List Nat, (∀ b ∈ l, b < 256) → valLE l < 256 ^ l.length := by
  intro l
  induction l with
  | nil => intro _; simp [valLE]
  | cons b bs ih =>
      intro h
      have hb : b < 256 := h b (List.mem_cons_self _ _)
      have hv := ih fun x hx => h x (List.mem_cons_of_mem _ hx)
      simp only [valLE, List.length_cons, pow_succ]
      omega

theorem valLE_inj : ∀ l₁ l₂ : List Nat, l₁.length = l₂.length →
    (∀ b ∈ l₁, b < 256) → (∀ b ∈ l₂, b < 256) → valLE l₁ = valLE l₂ → l₁ = l₂ := by
  intro l₁
  induction l₁ with
  | nil =>
      intro l₂ hlen _ _ _
      cases l₂ with
      | nil => rfl
      | cons _ _ => simp at hlen
  | cons b bs ih =>
      intro l₂ hlen h1 h2 hval
      cases l₂ with
      | nil => simp at hlen
      | cons c cs =>
          have hb : b < 256 := h1 b (List.mem_cons_self _ _)
          have hc : c < 256 := h2 c (List.mem_cons_self _ _)
          simp only [valLE] at hval
          have hbc : b = c ∧ valLE bs = valLE cs := by omega
          have : bs = cs := ih cs (by simpa using hlen)
            (fun x hx => h1 x (List.mem_cons_of_mem _ hx))
            (fun x hx => h2 x (List.mem_cons_of_mem _ hx)) hbc.2
          rw [hbc.1, this]

/-- Pigeonhole for 32-byte digests: any infinite family of digests
contains two distinct indices with the same digest. This is the reason
none of the hash-uniqueness properties can hold unconditionally. -/
theorem exists_digest_collision (f : Nat → List Nat)
    (hlen : ∀ n, (f n).length = 32) (hlt : ∀ n, ∀ b ∈ f n, b < 256) :
    ∃ m₁ m₂ : Nat, m₁ < m₂ ∧ f m₁ = f m₂ := by
  have hmap : Set.MapsTo (fun n => valLE (f n)) Set.univ (Set.Iio (256 ^ 32)) := by
    intro n _
    have := valLE_lt (f n) (hlt n)
    rw [hlen n] at this
    simpa using this
  obtain ⟨x, -, y, -, hxy, hfe⟩ :=
    Set.infinite_univ.exists_ne_map_eq_of_mapsTo hmap (Set.finite_Iio _)
  have hfxy : f x = f y :=
    valLE_inj _ _ (by rw [hlen, hlen]) (hlt x) (hlt y) hfe
  rcases Nat.lt_or_ge x y with h | h
  · exact ⟨x, y, h, hfxy⟩
  · exact ⟨y, x, lt_of_le_of_ne h (fun e => hxy e.symm), hfxy.symm⟩

/-! ## General lemmas: ASCII strings and UTF-8 injectivity -/

theorem utf8Char_ascii {c : Char} (h : c.toNat < 128) : utf8Char c = [c.toNat] := by
  simp [utf8Char, h]

theorem utf8Encode_eq_map : ∀ l : List Char, (∀ c ∈ l, c.toNat < 128) →
    utf8Encode l = l.map Char.toNat := by
  intro l
  induction l with
  | nil => intro _; rfl
  | cons c cs ih =>
      intro h
      have hc : c.toNat < 128 := h c (List.mem_cons_self _ _)
      simp [utf8Encode, utf8Char_ascii hc,
        ih fun x hx => h x (List.mem_cons_of_mem _ hx)]

theorem charToNat_injective : Function.Injective Char.toNat :=
  fun _ _ hab => Char.ext (UInt32.ext hab)

theorem utf8Encode_inj {l₁ l₂ : List Char}
    (h1 : ∀ c ∈ l₁, c.toNat < 128) (h2 : ∀ c ∈ l₂, c.toNat < 128)
    (he : utf8Encode l₁ = utf8Encode l₂) : l₁ = l₂ := by
  rw [utf8Encode_eq_map l₁ h1, utf8Encode_eq_map l₂ h2] at he
  exact List.map_injective_iff.mpr charToNat_injective he

theorem utf8Encode_ne {l₁ l₂ : List Char}
    (h1 : ∀ c ∈ l₁, c.toNat < 128) (h2 : ∀ c ∈ l₂, c.toNat < 128)
    (hne : l₁ ≠ l₂) : utf8Encode l₁ ≠ utf8Encode l₂ :=
  fun he => hne (utf8Encode_inj h1 h2 he)

theorem getD_ascii : ∀ (l : List Char) (n : Nat) (d : Char),
    (∀ c ∈ l, c.toNat < 128) → d.toNat < 128 → (l.getD n d).toNat < 128 := by
  intro l
  induction l with
  | nil => intro n d _ hd; simpa [List.getD_nil] using hd
  | cons a as ih =>
      intro n d h hd
      cases n with
      | zero => simpa [List.getD_cons_zero] using h a (List.mem_cons_self _ _)
      | succ m =>
          rw [List.getD_cons_succ]
          exact ih m d (fun x hx => h x (List.mem_cons_of_mem _ hx)) hd

theorem hexChar_ascii (n : Nat) : (hexChar n).toNat < 128 :=
  getD_ascii _ _ _ (by decide) (by decide)

theorem b64Char_ascii (n : Nat) : (b64Char n).toNat < 128 :=
  getD_ascii _ _ _ (by decide) (by decide)

theorem digitChar_ascii (n : Nat) : (digitChar n).toNat < 128 :=
  getD_ascii _ _ _ (by decide) (by decide)

theorem bytesToHex_ascii : ∀ bs : List Nat, ∀ c ∈ bytesToHex bs, c.toNat < 128 := by
  intro bs
  induction bs with
  | nil => intro c hc; simp [bytesToHex] at hc
  | cons b rest ih =>
      intro c hc
      simp only [bytesToHex, List.mem_cons] at hc
      rcases hc with rfl | rfl | hc
      · exact hexChar_ascii _
      · exact hexChar_ascii _
      · exact ih c hc

theorem base64Encode_ascii : ∀ bs : List Nat, ∀ c ∈ base64Encode bs, c.toNat < 128 := by
  intro bs
  induction bs using base64Encode.induct with
  | case1 b1 b2 b3 rest ih =>
      intro c hc
      simp only [base64Encode, List.mem_cons] at hc
      rcases hc with rfl | rfl | rfl | rfl | hc
      · exact b64Char_ascii _
      · exact b64Char_ascii _
      · exact b64Char_ascii _
      · exact b64Char_ascii _
      · exact ih c hc
  | case2 b1 b2 =>
      intro c hc
      simp only [base64Encode, List.mem_cons, List.not_mem_nil, or_false] at hc
      rcases hc with rfl | rfl | rfl | rfl
      · exact b64Char_ascii _
      · exact b64Char_ascii _
      · exact b64Char_ascii _
      · decide
  | case3 b1 =>
      intro c hc
      simp only [base64Encode, List.mem_cons, List.not_mem_nil, or_false] at hc
      rcases hc with rfl | rfl | rfl | rfl
      · exact b64Char_ascii _
      · exact b64Char_ascii _
      · decide
      · decide
  | case4 =>
      intro c hc
      simp [base64Encode] at hc

theorem natDigitsAux_ascii : ∀ (fuel n : Nat) (acc : List Char),
    (∀ c ∈ acc, c.toNat < 128) → ∀ c ∈ natDigitsAux fuel n acc, c.toNat < 128 := by
  intro fuel
  induction fuel with
  | zero => intro n acc hacc c hc; exact hacc c hc
  | succ m ih =>
      intro n acc hacc c hc
      simp only [natDigitsAux] at hc
      split at hc
      · rcases List.mem_cons.mp hc with rfl | hmem
        · exact digitChar_ascii _
        · exact hacc c hmem
      · refine ih _ _ ?_ c hc
        intro x hx
        rcases List.mem_cons.mp hx with rfl | hmem
        · exact digitChar_ascii _
        · exact hacc x hmem

theorem natRepr_ascii (n : Nat) : ∀ c ∈ natRepr n, c.toNat < 128 :=
  natDigitsAux_ascii _ _ _ (by simp)

theorem intRepr_ascii (i : Int) : ∀ c ∈ intRepr i, c.toNat < 128 := by
  intro c hc
  simp only [intRepr] at hc
  split at hc
  · rcases List.mem_cons.mp hc with rfl | hmem
    · decide
    · exact natRepr_ascii _ c hmem
  · exact natRepr_ascii _ c hc

theorem hash_semantic_truth_ascii (s : List Char) :
    ∀ c ∈ hash_semantic_truth s, c.toNat < 128 := by
  intro c hc
  exact bytesToHex_ascii _ c hc

theorem flag_value_ascii (c : CryptoService)
    (u k h s : List Char) (tw : Int) :
    ∀ ch ∈ c.flag_value u k h s tw, ch.toNat < 128 := by
  intro ch hch
  exact base64Encode_ascii _ ch (List.take_subset _ _ hch)

theorem generate_flag_ascii (c : CryptoService)
    (u k h s : List Char) (now : Int) (tw : Option Int) :
    ∀ ch ∈ c.generate_flag u k h s now tw, ch.toNat < 128 := by
  intro ch hch
  simp only [CryptoService.generate_flag, List.mem_append] at hch
  rcases hch with (hch | hch) | hch
  · revert hch; revert ch; decide
  · exact flag_value_ascii _ _ _ _ _ _ ch hch
  · revert hch; revert ch; decide

/-! ## Lemmas about flag generation and verification -/

theorem CryptoService.generate_flag_some (c : CryptoService)
    (u k h s : List Char) (now : Int) (w : Int) :
    c.generate_flag u k h s now (some w) =
      flagPre ++ c.flag_value u k h s w ++ flagSuf := rfl

/-- With an explicit window, `generate_flag` ignores the clock. -/
theorem CryptoService.generate_flag_clock_free (c : CryptoService)
    (u k h s : List Char) (now₁ now₂ : Int) (w : Int) :
    c.generate_flag u k h s now₁ (some w) = c.generate_flag u k h s now₂ (some w) := rfl

/-- With no explicit window, `generate_flag` uses the current window. -/
theorem CryptoService.generate_flag_none (c : CryptoService)
    (u k h s : List Char) (now : Int) :
    c.generate_flag u k h s now none =
      c.generate_flag u k h s now (some (c.get_time_window now)) := rfl

/-- Two flags coincide exactly when their truncated base64 bodies do:
the fixed envelope is cancellable. -/
theorem generate_flag_eq_iff (c₁ c₂ : CryptoService)
    (u₁ k₁ h₁ s₁ u₂ k₂ h₂ s₂ : List Char) (now₁ now₂ w₁ w₂ : Int) :
    c₁.generate_flag u₁ k₁ h₁ s₁ now₁ (some w₁) =
      c₂.generate_flag u₂ k₂ h₂ s₂ now₂ (some w₂) ↔
    c₁.flag_value u₁ k₁ h₁ s₁ w₁ = c₂.flag_value u₂ k₂ h₂ s₂ w₂ := by
  rw [CryptoService.generate_flag_some, CryptoService.generate_flag_some]
  constructor
  · intro he
    rw [List.append_assoc, List.append_assoc] at he
    exact List.append_cancel_right (List.append_cancel_left he)
  · intro he
    rw [he]

/-- A submission equal to the current window's expected token verifies. -/
theorem verify_flag_valid_curr (c : CryptoService)
    (sub u k h s : List Char) (now : Int)
    (hsub : sub = c.generate_flag u k h s now (some (c.get_time_window now))) :
    c.verify_flag sub u k h s now = (true, "valid".data) := by
  subst hsub
  simp [CryptoService.verify_flag, CryptoService.get_adjacent_time_windows, compare_digest]

/-- A submission equal to the previous window's expected token verifies,
whatever the outcome of the current-window comparison. -/
theorem verify_flag_valid_prev (c : CryptoService)
    (sub u k h s : List Char) (now : Int)
    (hsub : sub = c.generate_flag u k h s now (some (c.get_time_window now - 1))) :
    c.verify_flag sub u k h s now = (true, "valid".data) := by
  cases hB : compare_digest (utf8Encode sub)
      (utf8Encode (c.generate_flag u k h s now (some (c.get_time_window now)))) with
  | true =>
      simp [CryptoService.verify_flag, CryptoService.get_adjacent_time_windows, hB]
  | false =>
      subst hsub
      simp [CryptoService.verify_flag, CryptoService.get_adjacent_time_windows, hB,
        compare_digest]

/-- A submission differing from both expected tokens is rejected as
`invalid_or_expired` (ASCII submissions; every generated flag is ASCII). -/
theorem verify_flag_invalid (c : CryptoService)
    (sub u k h s : List Char) (now : Int)
    (hasc : ∀ ch ∈ sub, ch.toNat < 128)
    (h1 : sub ≠ c.generate_flag u k h s now (some (c.get_time_window now)))
    (h2 : sub ≠ c.generate_flag u k h s now (some (c.get_time_window now - 1))) :
    c.verify_flag sub u k h s now = (false, "invalid_or_expired".data) := by
  have e1 : compare_digest (utf8Encode sub)
      (utf8Encode (c.generate_flag u k h s now (some (c.get_time_window now)))) = false := by
    rw [compare_digest, beq_eq_false_iff_ne]
    exact utf8Encode_ne hasc (generate_flag_ascii _ _ _ _ _ _ _) h1
  have e2 : compare_digest (utf8Encode sub)
      (utf8Encode (c.generate_flag u k h s now (some (c.get_time_window now - 1)))) = false := by
    rw [compare_digest, beq_eq_false_iff_ne]
    exact utf8Encode_ne hasc (generate_flag_ascii _ _ _ _ _ _ _) h2
  simp [CryptoService.verify_flag, CryptoService.get_adjacent_time_windows, e1, e2]

theorem flag_digest_length (c : CryptoService) (u k h s : List Char) (tw : Int) :
    (c.flag_digest u k h s tw).length = 32 := hmacSha256_length _ _

theorem flag_digest_lt (c : CryptoService) (u k h s : List Char) (tw : Int) :
    ∀ b ∈ c.flag_digest u k h s tw, b < 256 := hmacSha256_lt _ _

/-! ## Lemmas about answer normalization -/

theorem lowerChar_toNat (c : Char) :
    (lowerChar c).toNat =
      if 65 ≤ c.toNat ∧ c.toNat ≤ 90 then c.toNat + 32 else c.toNat := by
  unfold lowerChar
  split <;> rfl

/-- Case folding never creates or destroys whitespace. -/
theorem isPySpace_lower (c : Char) : isPySpace (lowerChar c) = isPySpace c := by
  by_cases h : 65 ≤ c.toNat ∧ c.toNat ≤ 90
  · have h1 : (lowerChar c).toNat = c.toNat + 32 := by rw [lowerChar_toNat, if_pos h]
    have e1 : isPySpace (lowerChar c) = false := by
      simp [isPySpace, h1]
      omega
    have e2 : isPySpace c = false := by
      simp [isPySpace]
      omega
    rw [e1, e2]
  · have h1 : lowerChar c = c := by
      unfold lowerChar
      rw [dif_neg h]
    rw [h1]

theorem dropWhile_append_spaces (w s : List Char)
    (hw : ∀ c ∈ w, isPySpace c = true) :
    List.dropWhile isPySpace (w ++ s) = List.dropWhile isPySpace s := by
  rw [List.dropWhile_append, List.dropWhile_eq_nil_iff.mpr hw]
  simp

/-- Stripping ignores additional surrounding whitespace. -/
theorem pyStrip_pad (w₁ w₂ s : List Char)
    (h1 : ∀ c ∈ w₁, isPySpace c = true) (h2 : ∀ c ∈ w₂, isPySpace c = true) :
    pyStrip (w₁ ++ s ++ w₂) = pyStrip s := by
  unfold pyStrip
  rw [List.append_assoc, dropWhile_append_spaces w₁ _ h1, List.dropWhile_append]
  split
  · rename_i he
    have hs : List.dropWhile isPySpace s = [] := by
      cases hds : List.dropWhile isPySpace s with
      | nil => rfl
      | cons a l => rw [hds] at he; simp at he
    rw [List.dropWhile_eq_nil_iff.mpr h2, hs]
  · rw [List.reverse_append,
      dropWhile_append_spaces w₂.reverse _
        (fun c hc => h2 c (List.mem_reverse.mp hc))]

/-- Stripping commutes with case folding. -/
theorem pyStrip_pyLower (s : List Char) :
    pyStrip (pyLower s) = pyLower (pyStrip s) := by
  unfold pyStrip pyLower
  have hps : (isPySpace ∘ lowerChar) = isPySpace := funext isPySpace_lower
  rw [List.dropWhile_map, hps, ← List.map_reverse, List.dropWhile_map, hps,
    ← List.map_reverse]

/-- The stored digest is insensitive to surrounding whitespace and to
letter case. -/
theorem hash_semantic_truth_norm (w₁ w₂ s t : List Char)
    (h1 : ∀ c ∈ w₁, isPySpace c = true) (h2 : ∀ c ∈ w₂, isPySpace c = true)
    (hcase : pyLower s = pyLower t) :
    hash_semantic_truth (w₁ ++ s ++ w₂) = hash_semantic_truth t := by
  unfold hash_semantic_truth
  rw [pyStrip_pad w₁ w₂ s h1 h2, ← pyStrip_pyLower, hcase, pyStrip_pyLower]

/-- `verify_answer` against a stored digest succeeds exactly on digest
equality of the normalized answers. -/
theorem verify_answer_hash_iff (a b : List Char) :
    CryptoService.verify_answer a (hash_semantic_truth b) = true ↔
      hash_semantic_truth a = hash_semantic_truth b := by
  unfold CryptoService.verify_answer compare_digest
  rw [beq_iff_eq]
  constructor
  · exact utf8Encode_inj (hash_semantic_truth_ascii a) (hash_semantic_truth_ascii b)
  · intro h
    rw [h]

/-! ## Lemmas about the engine -/

theorem maybe_rotate_id (e : FlagEngine) (now : Int) (fresh : List Char) (u : User) :
    (e.maybe_rotate_user_salt now fresh u).id = u.id := by
  simp only [FlagEngine.maybe_rotate_user_salt]
  split <;> rfl

/-! ## Claim C5: deterministic minting -/

/-- C5: flag minting is deterministic — for a fixed user, case, digest,
salt, secret key, and explicit time window, any two invocations of
`generate_flag` (any clock readings, any service instances over the same
secret) return the identical token string. -/
theorem flag_minting_deterministic (c₁ c₂ : CryptoService)
    (u k h s : List Char) (now₁ now₂ w : Int)
    (hkey : c₁.secretKey = c₂.secretKey) :
    c₁.generate_flag u k h s now₁ (some w) = c₂.generate_flag u k h s now₂ (some w) := by
  simp [CryptoService.generate_flag, CryptoService.flag_value,
    CryptoService.flag_digest, CryptoService.secretKeyBytes, hkey]

/-- Witness for C5 at concrete inputs and two different clock readings. -/
theorem flag_minting_deterministic_witness :
    cTest.generate_flag "u".data "c".data "h".data "s".data 0 (some 5) =
      ({ secretKey := "test-secret-key".data } : CryptoService).generate_flag
        "u".data "c".data "h".data "s".data 999999 (some 5) :=
  flag_minting_deterministic _ _ _ _ _ _ _ _ _ rfl

/-! ## Claim C4: answer normalization -/

/-- C4: answers differing only in letter case or in surrounding
whitespace hash to the same digest, and `verify_answer` accepts a
submission against a stored digest exactly when the normalized forms
hash equal. -/
theorem answer_normalization (w₁ w₂ s t a b : List Char)
    (h1 : ∀ c ∈ w₁, isPySpace c = true) (h2 : ∀ c ∈ w₂, isPySpace c = true)
    (hcase : pyLower s = pyLower t) :
    hash_semantic_truth (w₁ ++ s ++ w₂) = hash_semantic_truth t ∧
    (CryptoService.verify_answer a (hash_semantic_truth b) = true ↔
      hash_semantic_truth a = hash_semantic_truth b) :=
  ⟨hash_semantic_truth_norm w₁ w₂ s t h1 h2 hcase, verify_answer_hash_iff a b⟩

/-- Witness for C4: the spec's own example `hash("  Foo ") = hash("foo")`,
and the scenario answer pair. -/
theorem answer_normalization_witness :
    hash_semantic_truth "  Foo ".data = hash_semantic_truth "foo".data ∧
    (CryptoService.verify_answer "Admin_Password_Reuse".data
        (hash_semantic_truth "admin_password_reuse".data) = true ↔
      hash_semantic_truth "Admin_Password_Reuse".data =
        hash_semantic_truth "admin_password_reuse".data) :=
  answer_normalization "  ".data " ".data "Foo".data "foo".data
    "Admin_Password_Reuse".data "admin_password_reuse".data
    (by decide) (by decide) (by decide)

/-! ## Claim C7: incorrect submissions are a normal generic outcome -/

/-- C7: when the answer does not verify, `process_submission` returns the
normal quadruple `(False, generic message, no flag, no points)` — a
constant independent of which wrong answer was sent and of prior solve
state. -/
theorem incorrect_submission_generic (e : FlagEngine) (db : List Submission)
    (user : User) (cs : Case) (answer : List Char)
    (ip ua : Option (List Char)) (t : Option Int) (now : Int) (fresh : List Char)
    (hwrong : e.verify_answer answer cs.semantic_truth_hash = false) :
    (e.process_submission db user cs answer ip ua t now fresh).2.2 =
      ⟨false, incorrect_message, none, none⟩ := by
  simp [FlagEngine.process_submission, hwrong]

/-- Witness for C7: a concrete wrong answer against a concrete case. -/
theorem incorrect_submission_generic_witness :
    (eTest.process_submission [] ⟨"u1".data, "s1".data, 0⟩
        ⟨"c1".data, hash_semantic_truth "right".data, "cs".data, 100⟩
        "wrong".data none none none 0 "f".data).2.2 =
      ⟨false, incorrect_message, none, none⟩ :=
  incorrect_submission_generic _ _ _ _ _ _ _ _ _ _ (by decide)

/-! ## Claim C8: exactly one record, digest only -/

/-- C8: every call to `process_submission` — correct or not — appends
exactly one submission record, whose answer field is the digest of the
submitted answer (never the plaintext) together with the verdict. -/
theorem submission_record_digest_only (e : FlagEngine) (db : List Submission)
    (user : User) (cs : Case) (answer : List Char)
    (ip ua : Option (List Char)) (t : Option Int) (now : Int) (fresh : List Char) :
    (e.process_submission db user cs answer ip ua t now fresh).1 =
      db ++ [⟨user.id, cs.id, hash_semantic_truth answer,
        e.verify_answer answer cs.semantic_truth_hash, ip, ua, t⟩] := by
  simp only [FlagEngine.process_submission, maybe_rotate_id]
  split
  · split <;> rfl
  · rfl

/-! ## Claim C10: repeat solves get the flag but zero points -/

/-- C10: a correct submission still returns `True` with a freshly minted
flag when the user already solved the case, but awards 0 points; a first
correct submission awards the case's configured points. -/
theorem repeat_solve_zero_points (e : FlagEngine) (db : List Submission)
    (user : User) (cs : Case) (answer : List Char)
    (ip ua : Option (List Char)) (t : Option Int) (now : Int) (fresh : List Char)
    (hcorrect : e.verify_answer answer cs.semantic_truth_hash = true) :
    (FlagEngine.check_already_solved db user.id cs.id = true →
      (e.process_submission db user cs answer ip ua t now fresh).2.2 =
        ⟨true, already_solved_message e.crypto.flagExpiryMinutes,
         some (e.generate_flag_for_user user.id cs.id cs.semantic_truth_hash
           cs.case_salt (e.maybe_rotate_user_salt now fresh user).flag_salt now),
         some 0⟩) ∧
    (FlagEngine.check_already_solved db user.id cs.id = false →
      (e.process_submission db user cs answer ip ua t now fresh).2.2 =
        ⟨true, correct_message e.crypto.flagExpiryMinutes,
         some (e.generate_flag_for_user user.id cs.id cs.semantic_truth_hash
           cs.case_salt (e.maybe_rotate_user_salt now fresh user).flag_salt now),
         some cs.points⟩) := by
  constructor <;> intro hsolved <;>
    simp [FlagEngine.process_submission, maybe_rotate_id, hcorrect, hsolved]

/-- Witness for C10: the same correct answer (up to normalization) on a
case already solved in the table and on a fresh table. -/
theorem repeat_solve_zero_points_witness :
    (eTest.process_submission
        [⟨"u1".data, "c1".data, "x".data, true, none, none, none⟩]
        ⟨"u1".data, "s1".data, 0⟩
        ⟨"c1".data, hash_semantic_truth "answer".data, "cs".data, 100⟩
        "Answer ".data none none none 0 "f".data).2.2 =
      ⟨true, already_solved_message 60,
       some (eTest.generate_flag_for_user "u1".data "c1".data
         (hash_semantic_truth "answer".data) "cs".data "s1".data 0),
       some 0⟩ ∧
    (eTest.process_submission []
        ⟨"u1".data, "s1".data, 0⟩
        ⟨"c1".data, hash_semantic_truth "answer".data, "cs".data, 100⟩
        "Answer ".data none none none 0 "f".data).2.2 =
      ⟨true, correct_message 60,
       some (eTest.generate_flag_for_user "u1".data "c1".data
         (hash_semantic_truth "answer".data) "cs".data "s1".data 0),
       some 100⟩ :=
  ⟨(repeat_solve_zero_points eTest _ _ _ _ _ _ _ _ _ (by decide)).1 (by decide),
   (repeat_solve_zero_points eTest _ _ _ _ _ _ _ _ _ (by decide)).2 (by decide)⟩

/-! ## Claim C3: salt rotation threshold

The source rotates when `flag_salt_rotated_at < now - interval`, i.e.
when `now - rotated_at` is *strictly greater* than the interval; at exact
equality the user is returned unchanged, contradicting the claim's
boundary case. -/

/-- C3 counterexample: it is not the case that the salt is rotated
whenever `now - rotated_at ≥ interval` (with the user otherwise
unchanged) — at exact equality the code does not rotate. -/
theorem salt_rotation_boundary_counterexample :
    ¬ (∀ (e : FlagEngine) (now : Int) (fresh : List Char) (user : User),
        (now - user.flag_salt_rotated_at ≥ (e.flagSaltRotationHours : Int) * 3600 →
          e.maybe_rotate_user_salt now fresh user =
            { user with flag_salt := fresh, flag_salt_rotated_at := now }) ∧
        (now - user.flag_salt_rotated_at < (e.flagSaltRotationHours : Int) * 3600 →
          e.maybe_rotate_user_salt now fresh user = user)) := by
  intro hP
  have h := (hP eTest 86400 "f".data ⟨"u".data, "s".data, 0⟩).1 (by decide)
  have h2 : eTest.maybe_rotate_user_salt 86400 "f".data ⟨"u".data, "s".data, 0⟩ =
      ⟨"u".data, "s".data, 0⟩ := by decide
  rw [h2] at h
  exact absurd h (by decide)

/-- C3 amended: `maybe_rotate_user_salt` replaces the salt with the fresh
value and stamps `rotated_at := now` exactly when `now - rotated_at` is
strictly greater than the rotation interval; otherwise (the exact
boundary included) the user is returned unchanged. -/
theorem salt_rotation_threshold (e : FlagEngine) (now : Int) (fresh : List Char)
    (user : User) :
    (now - user.flag_salt_rotated_at > (e.flagSaltRotationHours : Int) * 3600 →
      e.maybe_rotate_user_salt now fresh user =
        { user with flag_salt := fresh, flag_salt_rotated_at := now }) ∧
    (now - user.flag_salt_rotated_at ≤ (e.flagSaltRotationHours : Int) * 3600 →
      e.maybe_rotate_user_salt now fresh user = user) := by
  constructor <;> intro h <;> simp only [FlagEngine.maybe_rotate_user_salt]
  · rw [if_pos (by omega)]
  · rw [if_neg (by omega)]

/-- Witness for C3: one second past the 24-hour boundary rotates; at the
exact boundary nothing changes. -/
theorem salt_rotation_threshold_witness :
    eTest.maybe_rotate_user_salt 86401 "f".data ⟨"u".data, "s".data, 0⟩ =
      ⟨"u".data, "f".data, 86401⟩ ∧
    eTest.maybe_rotate_user_salt 86400 "f".data ⟨"u".data, "s".data, 0⟩ =
      ⟨"u".data, "s".data, 0⟩ :=
  ⟨(salt_rotation_threshold eTest 86401 "f".data ⟨"u".data, "s".data, 0⟩).1 (by decide),
   (salt_rotation_threshold eTest 86400 "f".data ⟨"u".data, "s".data, 0⟩).2 (by decide)⟩

/-! ## Claim C1: round trip and expiry

The validity half holds unconditionally. The expiry half cannot hold for
all inputs: the token space is finite (a truncated HMAC), so some pair
of windows two or more apart shares a token, and the flag of the earlier
window then verifies in the later one. It holds exactly in the absence
of such a truncated-HMAC collision. -/

/-- C1 counterexample: the claim as stated — valid in windows `n` and
`n + 1`, and `invalid_or_expired` from `n + 2` on, for *every* input —
is refuted by pigeonhole: some two windows at distance ≥ 2 share a
token. -/
theorem flag_expiry_counterexample :
    ¬ (∀ (c : CryptoService) (u k h s : List Char) (n now : Int),
        ((c.get_time_window now = n ∨ c.get_time_window now = n + 1) →
          c.verify_flag (c.generate_flag u k h s now (some n)) u k h s now =
            (true, "valid".data)) ∧
        (n + 2 ≤ c.get_time_window now →
          c.verify_flag (c.generate_flag u k h s now (some n)) u k h s now =
            (false, "invalid_or_expired".data))) := by
  intro hP
  obtain ⟨m₁, m₂, hlt, hcol⟩ := exists_digest_collision
    (fun j => cTest.flag_digest "u".data "k".data "h".data "s".data (2 * (j : Int)))
    (fun _ => flag_digest_length _ _ _ _ _ _)
    (fun _ => flag_digest_lt _ _ _ _ _ _)
  have hwin : cTest.get_time_window (2 * (m₂ : Int) * 3600) = 2 * (m₂ : Int) := by
    show Int.fdiv (2 * (m₂ : Int) * 3600) _ = 2 * (m₂ : Int)
    exact Int.mul_fdiv_cancel _ (by norm_num)
  have hval : cTest.flag_value "u".data "k".data "h".data "s".data (2 * (m₁ : Int)) =
      cTest.flag_value "u".data "k".data "h".data "s".data (2 * (m₂ : Int)) := by
    unfold CryptoService.flag_value
    rw [hcol]
  have htok : cTest.generate_flag "u".data "k".data "h".data "s".data
      (2 * (m₂ : Int) * 3600) (some (2 * (m₁ : Int))) =
      cTest.generate_flag "u".data "k".data "h".data "s".data
      (2 * (m₂ : Int) * 3600) (some (2 * (m₂ : Int))) :=
    (generate_flag_eq_iff _ _ _ _ _ _ _ _ _ _ _ _ _ _).mpr hval
  have h2 := (hP cTest "u".data "k".data "h".data "s".data
      (2 * (m₁ : Int)) (2 * (m₂ : Int) * 3600)).2 (by rw [hwin]; omega)
  have h3 := verify_flag_valid_curr cTest
      (cTest.generate_flag "u".data "k".data "h".data "s".data
        (2 * (m₂ : Int) * 3600) (some (2 * (m₁ : Int))))
      "u".data "k".data "h".data "s".data (2 * (m₂ : Int) * 3600)
      (by rw [hwin]; exact htok)
  rw [h2] at h3
  exact absurd h3 (by decide)

/-- C1 amended: a flag minted with explicit window `n` verifies as
`(True, "valid")` whenever the verifier's current window is `n` or
`n + 1`; and when the current window is `n + 2` or later it is rejected
as `(False, "invalid_or_expired")` provided the minted token's truncated
HMAC body differs from those of the verifier's current and previous
windows (i.e. absent a truncated-HMAC collision). -/
theorem flag_expiry (c : CryptoService) (u k h s : List Char) (n now : Int) :
    ((c.get_time_window now = n ∨ c.get_time_window now = n + 1) →
      c.verify_flag (c.generate_flag u k h s now (some n)) u k h s now =
        (true, "valid".data)) ∧
    (n + 2 ≤ c.get_time_window now →
      c.flag_value u k h s n ≠ c.flag_value u k h s (c.get_time_window now) →
      c.flag_value u k h s n ≠ c.flag_value u k h s (c.get_time_window now - 1) →
      c.verify_flag (c.generate_flag u k h s now (some n)) u k h s now =
        (false, "invalid_or_expired".data)) := by
  constructor
  · rintro (hw | hw)
    · exact verify_flag_valid_curr _ _ _ _ _ _ _ (by rw [hw])
    · refine verify_flag_valid_prev _ _ _ _ _ _ _ ?_
      have hn : n = c.get_time_window now - 1 := by omega
      rw [← hn]
  · intro _ hne1 hne2
    refine verify_flag_invalid _ _ _ _ _ _ _ (generate_flag_ascii _ _ _ _ _ _ _) ?_ ?_
    · intro he
      exact hne1 ((generate_flag_eq_iff _ _ _ _ _ _ _ _ _ _ _ _ _ _).mp he)
    · intro he
      exact hne2 ((generate_flag_eq_iff _ _ _ _ _ _ _ _ _ _ _ _ _ _).mp he)

/-- Witness for C1: a flag minted in window 100 verifies at a clock in
window 100 and is rejected at a clock in window 102 (the concrete
truncated HMACs differ). -/
theorem flag_expiry_witness :
    cTest.verify_flag
      (cTest.generate_flag "u1".data "c1".data "h1".data "s1".data 360000 (some 100))
      "u1".data "c1".data "h1".data "s1".data 360000 = (true, "valid".data) ∧
    cTest.verify_flag
      (cTest.generate_flag "u1".data "c1".data "h1".data "s1".data 367200 (some 100))
      "u1".data "c1".data "h1".data "s1".data 367200 =
        (false, "invalid_or_expired".data) :=
  ⟨(flag_expiry cTest "u1".data "c1".data "h1".data "s1".data 100 360000).1
      (Or.inl (by decide)),
   (flag_expiry cTest "u1".data "c1".data "h1".data "s1".data 100 367200).2
      (by decide) (by decide) (by decide)⟩

/-! ## Claim C2: cross-user and cross-salt rejection

Same situation as C1: rejection of another user's flag (or of a flag
minted under a rotated-away salt) holds exactly when the truncated HMAC
bodies differ, which pigeonhole shows cannot be the case for all inputs. -/

/-- C2 counterexample: it is not the case that, for *every* input, a
flag minted for user A is rejected when verified under a different
user id or a different salt — pigeonhole produces two distinct user ids
whose tokens coincide. -/
theorem cross_user_counterexample :
    ¬ (∀ (e : FlagEngine) (uidA uidB cid h csalt saltA saltB : List Char) (now : Int),
        (uidB ≠ uidA →
          e.verify_flag (e.generate_flag_for_user uidA cid h csalt saltA now)
            uidB cid h csalt saltA now = (false, "invalid_or_expired".data)) ∧
        (saltB ≠ saltA →
          e.verify_flag (e.generate_flag_for_user uidA cid h csalt saltA now)
            uidA cid h csalt saltB now = (false, "invalid_or_expired".data))) := by
  intro hP
  obtain ⟨j₁, j₂, hlt, hcol⟩ := exists_digest_collision
    (fun j => cTest.flag_digest (List.replicate j 'a')
      ("c1".data ++ ':' :: "cs".data) "h".data "s".data 0)
    (fun _ => flag_digest_length _ _ _ _ _ _)
    (fun _ => flag_digest_lt _ _ _ _ _ _)
  have hne : List.replicate j₂ 'a' ≠ List.replicate j₁ 'a' := by
    intro he
    have hlen := congrArg List.length he
    simp at hlen
    omega
  have hw0 : cTest.get_time_window 0 = 0 := by decide
  have hval : cTest.flag_value (List.replicate j₁ 'a')
      ("c1".data ++ ':' :: "cs".data) "h".data "s".data 0 =
      cTest.flag_value (List.replicate j₂ 'a')
      ("c1".data ++ ':' :: "cs".data) "h".data "s".data 0 := by
    unfold CryptoService.flag_value
    rw [hcol]
  have hsub : eTest.generate_flag_for_user (List.replicate j₁ 'a')
      "c1".data "h".data "cs".data "s".data 0 =
      cTest.generate_flag (List.replicate j₂ 'a')
        ("c1".data ++ ':' :: "cs".data) "h".data "s".data 0
        (some (cTest.get_time_window 0)) := by
    rw [hw0]
    exact (generate_flag_eq_iff cTest cTest
      (List.replicate j₁ 'a') ("c1".data ++ ':' :: "cs".data) "h".data "s".data
      (List.replicate j₂ 'a') ("c1".data ++ ':' :: "cs".data) "h".data "s".data
      0 0 (cTest.get_time_window 0) 0).mpr hval
  have h3 := verify_flag_valid_curr cTest
      (eTest.generate_flag_for_user (List.replicate j₁ 'a')
        "c1".data "h".data "cs".data "s".data 0)
      (List.replicate j₂ 'a') ("c1".data ++ ':' :: "cs".data) "h".data "s".data 0 hsub
  have h2 := (hP eTest (List.replicate j₁ 'a') (List.replicate j₂ 'a')
      "c1".data "h".data "cs".data "s".data "s".data 0).1 hne
  have h4 : eTest.verify_flag
      (eTest.generate_flag_for_user (List.replicate j₁ 'a')
        "c1".data "h".data "cs".data "s".data 0)
      (List.replicate j₂ 'a') "c1".data "h".data "cs".data "s".data 0 =
      (true, "valid".data) := h3
  rw [h2] at h4
  exact absurd h4 (by decide)

/-- C2 amended: a flag minted for user A is rejected as
`invalid_or_expired` when verified with a different user id, or with a
different salt (as after rotation), holding case, digest, case salt and
clock fixed — provided the truncated HMAC bodies of the wrong-identity
tokens differ from A's (no truncated-HMAC collision). -/
theorem cross_user_rejection (e : FlagEngine)
    (uidA uidB cid h csalt saltA saltB : List Char) (now : Int) :
    (uidB ≠ uidA →
      e.crypto.flag_value uidB (cid ++ ':' :: csalt) h saltA
          (e.crypto.get_time_window now) ≠
        e.crypto.flag_value uidA (cid ++ ':' :: csalt) h saltA
          (e.crypto.get_time_window now) →
      e.crypto.flag_value uidB (cid ++ ':' :: csalt) h saltA
          (e.crypto.get_time_window now - 1) ≠
        e.crypto.flag_value uidA (cid ++ ':' :: csalt) h saltA
          (e.crypto.get_time_window now) →
      e.verify_flag (e.generate_flag_for_user uidA cid h csalt saltA now)
        uidB cid h csalt saltA now = (false, "invalid_or_expired".data)) ∧
    (saltB ≠ saltA →
      e.crypto.flag_value uidA (cid ++ ':' :: csalt) h saltB
          (e.crypto.get_time_window now) ≠
        e.crypto.flag_value uidA (cid ++ ':' :: csalt) h saltA
          (e.crypto.get_time_window now) →
      e.crypto.flag_value uidA (cid ++ ':' :: csalt) h saltB
          (e.crypto.get_time_window now - 1) ≠
        e.crypto.flag_value uidA (cid ++ ':' :: csalt) h saltA
          (e.crypto.get_time_window now) →
      e.verify_flag (e.generate_flag_for_user uidA cid h csalt saltA now)
        uidA cid h csalt saltB now = (false, "invalid_or_expired".data)) := by
  constructor <;> intro _ hv1 hv2 <;>
    refine verify_flag_invalid e.crypto _ _ _ _ _ now
      (generate_flag_ascii _ _ _ _ _ _ _) ?_ ?_ <;> intro he
  · exact hv1 ((generate_flag_eq_iff e.crypto e.crypto
      uidA (cid ++ ':' :: csalt) h saltA uidB (cid ++ ':' :: csalt) h saltA
      now now (e.crypto.get_time_window now) (e.crypto.get_time_window now)).mp he).symm
  · exact hv2 ((generate_flag_eq_iff e.crypto e.crypto
      uidA (cid ++ ':' :: csalt) h saltA uidB (cid ++ ':' :: csalt) h saltA
      now now (e.crypto.get_time_window now) (e.crypto.get_time_window now - 1)).mp he).symm
  · exact hv1 ((generate_flag_eq_iff e.crypto e.crypto
      uidA (cid ++ ':' :: csalt) h saltA uidA (cid ++ ':' :: csalt) h saltB
      now now (e.crypto.get_time_window now) (e.crypto.get_time_window now)).mp he).symm
  · exact hv2 ((generate_flag_eq_iff e.crypto e.crypto
      uidA (cid ++ ':' :: csalt) h saltA uidA (cid ++ ':' :: csalt) h saltB
      now now (e.crypto.get_time_window now) (e.crypto.get_time_window now - 1)).mp he).symm

/-- Witness for C2: Alice's concrete flag fails for Bob, and fails for
Alice under a rotated salt. -/
theorem cross_user_rejection_witness :
    eTest.verify_flag
      (eTest.generate_flag_for_user "alice".data "c1".data "h1".data "cs".data "sA".data 0)
      "bob".data "c1".data "h1".data "cs".data "sA".data 0 =
        (false, "invalid_or_expired".data) ∧
    eTest.verify_flag
      (eTest.generate_flag_for_user "alice".data "c1".data "h1".data "cs".data "sA".data 0)
      "alice".data "c1".data "h1".data "cs".data "sB".data 0 =
        (false, "invalid_or_expired".data) :=
  ⟨(cross_user_rejection eTest "alice".data "bob".data "c1".data "h1".data
      "cs".data "sA".data "sB".data 0).1 (by decide) (by decide) (by decide),
   (cross_user_rejection eTest "alice".data "bob".data "c1".data "h1".data
      "cs".data "sA".data "sB".data 0).2 (by decide) (by decide) (by decide)⟩

/-! ## Claim C6: per-user and per-case uniqueness

Uniqueness of truncated-HMAC tokens cannot hold for all inputs — the
token space is finite while user ids are not — so the claim is amended
with the no-collision hypothesis, exactly as for C1 and C2. -/

/-- C6 counterexample: it is not the case that distinct users (or
distinct cases) always receive distinct tokens for the same window:
pigeonhole yields two distinct user ids with identical flags. -/
theorem flag_uniqueness_counterexample :
    ¬ (∀ (c : CryptoService) (u₁ u₂ k₁ k₂ h s₁ s₂ : List Char) (now w : Int),
        ((u₁, s₁) ≠ (u₂, s₂) →
          c.generate_flag u₁ k₁ h s₁ now (some w) ≠
            c.generate_flag u₂ k₁ h s₂ now (some w)) ∧
        (k₁ ≠ k₂ →
          c.generate_flag u₁ k₁ h s₁ now (some w) ≠
            c.generate_flag u₁ k₂ h s₁ now (some w))) := by
  intro hP
  obtain ⟨j₁, j₂, hlt, hcol⟩ := exists_digest_collision
    (fun j => cTest.flag_digest (List.replicate j 'a') "k".data "h".data "s".data 0)
    (fun _ => flag_digest_length _ _ _ _ _ _)
    (fun _ => flag_digest_lt _ _ _ _ _ _)
  have hpair : ((List.replicate j₁ 'a', "s".data) : List Char × List Char) ≠
      (List.replicate j₂ 'a', "s".data) := by
    intro he
    have hlen := congrArg (fun p : List Char × List Char => p.1.length) he
    simp at hlen
    omega
  have hval : cTest.flag_value (List.replicate j₁ 'a') "k".data "h".data "s".data 0 =
      cTest.flag_value (List.replicate j₂ 'a') "k".data "h".data "s".data 0 := by
    unfold CryptoService.flag_value
    rw [hcol]
  have htok := (generate_flag_eq_iff cTest cTest
    (List.replicate j₁ 'a') "k".data "h".data "s".data
    (List.replicate j₂ 'a') "k".data "h".data "s".data 0 0 0 0).mpr hval
  exact (hP cTest (List.replicate j₁ 'a') (List.replicate j₂ 'a')
    "k".data "k".data "h".data "s".data "s".data 0 0).1 hpair htok

/-- C6 amended: two distinct users receive distinct tokens for the same
case and window, and one user receives distinct tokens for two distinct
cases, whenever the corresponding truncated HMAC bodies differ (no
truncated-HMAC collision). -/
theorem flag_uniqueness (c : CryptoService)
    (u₁ u₂ k₁ k₂ h s₁ s₂ : List Char) (now w : Int) :
    ((u₁, s₁) ≠ (u₂, s₂) →
      c.flag_value u₁ k₁ h s₁ w ≠ c.flag_value u₂ k₁ h s₂ w →
      c.generate_flag u₁ k₁ h s₁ now (some w) ≠
        c.generate_flag u₂ k₁ h s₂ now (some w)) ∧
    (k₁ ≠ k₂ →
      c.flag_value u₁ k₁ h s₁ w ≠ c.flag_value u₁ k₂ h s₁ w →
      c.generate_flag u₁ k₁ h s₁ now (some w) ≠
        c.generate_flag u₁ k₂ h s₁ now (some w)) := by
  constructor
  · intro _ hv he
    exact hv ((generate_flag_eq_iff c c u₁ k₁ h s₁ u₂ k₁ h s₂ now now w w).mp he)
  · intro _ hv he
    exact hv ((generate_flag_eq_iff c c u₁ k₁ h s₁ u₁ k₂ h s₁ now now w w).mp he)

/-- Witness for C6: concrete distinct users and distinct cases give
concretely distinct tokens in the same window. -/
theorem flag_uniqueness_witness :
    cTest.generate_flag "alice".data "c1".data "h1".data "sA".data 0 (some 7) ≠
      cTest.generate_flag "bob".data "c1".data "h1".data "sB".data 0 (some 7) ∧
    cTest.generate_flag "alice".data "c1".data "h1".data "sA".data 0 (some 7) ≠
      cTest.generate_flag "alice".data "c2".data "h1".data "sA".data 0 (some 7) :=
  ⟨(flag_uniqueness cTest "alice".data "bob".data "c1".data "c2".data
      "h1".data "sA".data "sB".data 0 7).1 (by decide) (by decide),
   (flag_uniqueness cTest "alice".data "bob".data "c1".data "c2".data
      "h1".data "sA".data "sB".data 0 7).2 (by decide) (by decide)⟩
